import Mathlib

/-!
Verification of the Common Crawl downloader (`common_crawl_downloader2025.py`,
with the segment enumeration also present in `common_crawl_downloader2016.py`).

The external world (curl transfers, the gzip library) is modelled as an oracle:
one `Attempt` record per loop iteration describing what the environment does on
that iteration.  Everything the script itself does — the retry loop of
`download_and_unzip`, the magic-number check, the driver loop over segment
indices — is translated directly from the source.

File contents modelled per segment: the compressed file at `gz_path` and the
decompressed file at `out_path`, each `Option (List Byte)` (`none` = the file
does not exist).  `curl --fail --location --continue-at - -o gz_path url` is
modelled as appending the bytes the transfer produced to the current content of
`gz_path` (creating the file), which is the resume semantics of
`--continue-at -`.
-/

namespace CrawlFetch

/-- A byte, as a natural number (0 to 255 in practice). -/
abbrev Byte := Nat

/-- The two per-segment files the fetcher touches: the compressed download at
`gz_path` and the decompressed output at `out_path`.  `none` means the file is
absent. -/
structure FS where
  gz : Option (List Byte)
  out : Option (List Byte)
deriving DecidableEq

/-- The state of a segment before any attempt: neither file exists (the driver
clears the destination directory before the run). -/
def FS.empty : FS := ⟨none, none⟩

/-- What the gzip stream copy (lines 33-35 of the source) does when invoked:
either it completes, having written `bytes` to `out_path`, or it raises
`BadGzipFile`/`OSError` after having written `written` bytes to `out_path`
(the file was already opened with mode "wb", hence truncated). -/
inductive UnzipOutcome where
  | ok (bytes : List Byte)
  | fail (written : List Byte)
deriving DecidableEq

/-- Environment behaviour of one iteration of the retry loop: the exit status
of curl, the bytes curl appended to `gz_path` (resume semantics of
`--continue-at -`; possibly `[]`), and what the gzip copy would do if reached. -/
structure Attempt where
  curlExit : Nat
  appended : List Byte
  unzipResult : UnzipOutcome
deriving DecidableEq

/-- The print calls of `download_and_unzip`, in order of the source:
line 18 prints the attempt banner, line 25 the curl failure, line 36 the
success message, line 39 the gunzip failure, line 46 the retry announcement. -/
inductive LogEvent where
  | downloading (shown total : Nat) (url : String)
  | curlFailed
  | unzipOk
  | gunzipFailed
  | retrying (sleepTime : Nat)
deriving DecidableEq

/-- Recognises the per-attempt banner print of line 18. -/
def isDownloading : LogEvent → Bool
  | .downloading _ _ _ => true
  | _ => false

/-- Recognises a message that reports an error of the attempt itself
(line 25 "curl failed" or line 39 "gunzip failed"). -/
def isErrorMessage : LogEvent → Bool
  | .curlFailed => true
  | .gunzipFailed => true
  | _ => false

/-- The canonical gzip magic number, the bytes 0x1f 0x8b. -/
def magicBytes : List Byte := [0x1f, 0x8b]

/-- Line 28-30 of the source: `fh.read(2) == b"\x1f\x8b"`.  Reading two bytes
of a file shorter than two bytes returns the whole file, hence `List.take 2`. -/
def magicOk (c : List Byte) : Bool := c.take 2 == magicBytes

/-- Result of one iteration of the `while` body: the Python `return` on line 37
(success) or falling through to the retry logic (failure), together with the
file state and the messages printed during the iteration. -/
inductive AttemptResult where
  | success (fs : FS) (events : List LogEvent)
  | failure (fs : FS) (events : List LogEvent)
deriving DecidableEq

/-- File state after the iteration, for either result. -/
def AttemptResult.fsOf : AttemptResult → FS
  | .success fs _ => fs
  | .failure fs _ => fs

/-- Messages printed during the iteration, for either result. -/
def AttemptResult.eventsOf : AttemptResult → List LogEvent
  | .success _ ev => ev
  | .failure _ ev => ev

/-- One iteration of the `while` body of `download_and_unzip` (lines 18-39):
print the banner, run curl (append semantics of `--continue-at -`), and on a
zero exit status check the gzip magic and, if it matches, run the gzip copy.
No branch removes a file; the `open(out_path, "wb")` truncates `out_path`, so
on the decompression path `out_path` holds exactly the bytes written by this
iteration. -/
def runAttempt (attempt retries : Nat) (url : String) (a : Attempt) (fs : FS) : AttemptResult :=
  let gzBytes := fs.gz.getD [] ++ a.appended
  let fs1 : FS := ⟨some gzBytes, fs.out⟩
  let banner := LogEvent.downloading (attempt + 1) (retries + 1) url
  if a.curlExit ≠ 0 then
    .failure fs1 [banner, .curlFailed]
  else if magicOk gzBytes then
    match a.unzipResult with
    | .ok bytes => .success ⟨some gzBytes, some bytes⟩ [banner, .unzipOk]
    | .fail w => .failure ⟨some gzBytes, some w⟩ [banner, .gunzipFailed]
  else
    .failure fs1 [banner]

/-- How one call of `download_and_unzip` resolves: the Python function returns
`None` (constructor `success`) or raises
`RuntimeError(f"Failed after {retries+1} attempts: {file_url}")` (constructor
`fatal`, carrying the attempt count and URL of the message).  Both carry the
final file state, every message printed, and the list of sleep durations. -/
inductive FetchOutcome where
  | success (fs : FS) (log : List LogEvent) (sleeps : List Nat)
  | fatal (attemptsMade : Nat) (url : String) (fs : FS) (log : List LogEvent) (sleeps : List Nat)
deriving DecidableEq

/-- True when the call returned normally (Python returned `None`). -/
def FetchOutcome.isSuccess : FetchOutcome → Bool
  | .success _ _ _ => true
  | _ => false

/-- Final state of the two files. -/
def FetchOutcome.fsOf : FetchOutcome → FS
  | .success fs _ _ => fs
  | .fatal _ _ fs _ _ => fs

/-- Every message printed during the call. -/
def FetchOutcome.logOf : FetchOutcome → List LogEvent
  | .success _ log _ => log
  | .fatal _ _ _ log _ => log

/-- The sleep durations of the call, in order. -/
def FetchOutcome.sleepsOf : FetchOutcome → List Nat
  | .success _ _ sl => sl
  | .fatal _ _ _ _ sl => sl

/-- The attempt count of the RuntimeError message, when one was raised. -/
def FetchOutcome.attemptsReported : FetchOutcome → Option Nat
  | .fatal n _ _ _ _ => some n
  | _ => none

/-- The URL of the RuntimeError message, when one was raised. -/
def FetchOutcome.urlReported : FetchOutcome → Option String
  | .fatal _ u _ _ _ => some u
  | _ => none

/-- The retry loop of `download_and_unzip` (lines 15-47).  `fuel` counts the
iterations the `while attempt <= retries` guard still allows: the top-level
call passes `fuel = retries + 1` and `attempt = 0`, and the loop body keeps
`fuel = retries + 1 - attempt`, so `fuel = 0` is exactly the loop guard going
false, at which point Python falls off the end of the function and returns
`None`.  On a failed iteration the source increments `attempt`, raises if
`attempt > retries`, and otherwise prints the retry announcement and sleeps
`backoff * attempt` seconds. -/
def loopAux (url : String) (retries backoff : Nat) (world : Nat → Attempt) :
    Nat → Nat → FS → List LogEvent → List Nat → FetchOutcome
  | 0, _, fs, log, sleeps => .success fs log sleeps
  | fuel + 1, attempt, fs, log, sleeps =>
    match runAttempt attempt retries url (world attempt) fs with
    | .success fs1 ev => .success fs1 (log ++ ev) sleeps
    | .failure fs1 ev =>
      if attempt + 1 > retries then
        .fatal (retries + 1) url fs1 (log ++ ev) sleeps
      else
        loopAux url retries backoff world fuel (attempt + 1) fs1
          (log ++ ev ++ [.retrying (backoff * (attempt + 1))])
          (sleeps ++ [backoff * (attempt + 1)])

/-- `download_and_unzip(file_url, gz_path, out_path, retries, backoff)` run
against the oracle `world` (the behaviour of the environment on each
iteration), starting from file state `fs`. -/
def downloadAndUnzip (url : String) (retries backoff : Nat) (world : Nat → Attempt)
    (fs : FS) : FetchOutcome :=
  loopAux url retries backoff world (retries + 1) 0 fs [] []

/-- Decimal digits of a natural number, least significant first, with explicit
fuel (one unit per digit; the number itself is always enough fuel).  This is
the digit expansion that the format specifier `d` of `f"{i:05d}"` renders. -/
def natDigitsAux : Nat → Nat → List Nat
  | 0, _ => []
  | fuel + 1, n => if n = 0 then [] else n % 10 :: natDigitsAux fuel (n / 10)

/-- Decimal digits of `n`, least significant first (`[]` for 0, which the
zero-padding below turns into the same rendering "00000" Python produces). -/
def natDigits (n : Nat) : List Nat := natDigitsAux n n

/-- The file-number component `f"{i:05d}"` of the source (lines 75), as its
digit sequence, most significant first: the decimal digits of `i`, left-padded
with zeros to a minimum width of 5. -/
def fileNum (i : Nat) : List Nat :=
  List.replicate (5 - (natDigits i).length) 0 ++ (natDigits i).reverse

/-- Renders a digit sequence as the string Python interpolates. -/
def digitsStr (ds : List Nat) : String := String.mk (ds.map Nat.digitChar)

/-- `url_base` of `common_crawl_downloader2025.py` (line 50). -/
def urlBase2025 : String :=
  "https://data.commoncrawl.org/crawl-data/CC-MAIN-2025-05/segments/1736703361941.29/wet/CC-MAIN-20250126135402-20250126165402-"

/-- The local file-name stem of line 79. -/
def localStem2025 : String := "CC-MAIN-20250126135402-20250126165402-"

/-- `destination_dir` of line 55. -/
def destinationDir2025 : String := "./Datasets/CommonCrawl-2025-05/"

/-- `file_url = f"{url_base}{file_num}.warc.wet.gz"` (line 76). -/
def urlFor (i : Nat) : String := urlBase2025 ++ digitsStr (fileNum i) ++ ".warc.wet.gz"

/-- A segment descriptor: the loop index, its zero-padded file-number digits,
and the three derived names of lines 76-80.  `decompressedPath` is
`gz_file_path.replace(".gz", "")`; the substring ".gz" occurs exactly once in
`gz_file_path`, at its end, so the replacement strips the final ".gz". -/
structure SegmentDescriptor where
  index : Nat
  fileNumDigits : List Nat
  sourceUrl : String
  compressedPath : String
  decompressedPath : String
deriving DecidableEq

/-- The descriptor the driver builds for loop index `i` (lines 74-80). -/
def mkDescriptor (i : Nat) : SegmentDescriptor :=
  { index := i
    fileNumDigits := fileNum i
    sourceUrl := urlFor i
    compressedPath := destinationDir2025 ++ localStem2025 ++ digitsStr (fileNum i) ++ ".warc.wet.gz"
    decompressedPath := destinationDir2025 ++ localStem2025 ++ digitsStr (fileNum i) ++ ".warc.wet" }

/-- The Segment Enumerator: `for i in range(start_index, end_index)` yields one
descriptor per integer in the half-open range, in ascending order (line 74;
the 2016 script, line 30, iterates the same way). -/
def enumerateSegments (start endIdx : Nat) : List SegmentDescriptor :=
  (List.range' start (endIdx - start)).map mkDescriptor

/-- The value the Python function `download_and_unzip` returns when it returns
at all: the bare `return` on line 37 and falling off the end both produce the
Python value `None`. -/
inductive PyRet where
  | pyNone
deriving DecidableEq

/-- Python truthiness of that return value: `None` is falsy, so the driver
check `if not ok` on line 84 is always taken. -/
def truthy : PyRet → Bool
  | .pyNone => false

/-- The per-segment part of the driver loop (lines 83-91): call
`download_and_unzip`; a raised RuntimeError propagates (`Except.error` with the
attempt count and URL of the message); on a normal return bind `ok` to the
returned `None` and run `if not ok: print(...); continue` — only when `ok` is
truthy (never) does the driver reach `os.remove(gz_file_path)`.  The returned
Bool records whether the compressed file was removed. -/
def processSegment (url : String) (retries backoff : Nat) (world : Nat → Attempt)
    (fs : FS) : Except (Nat × String) (FS × Bool) :=
  match downloadAndUnzip url retries backoff world fs with
  | .success fs1 _ _ =>
    let ok : PyRet := .pyNone
    if truthy ok then .ok (⟨none, fs1.out⟩, true)
    else .ok (fs1, false)
  | .fatal n u _ _ _ => .error (n, u)

/-- Whether the fetch of segment `i` resolves without raising, for a family
`worlds` of per-segment oracles (each segment starts from `FS.empty`: the
destination directory is cleared before the loop, lines 61-69). -/
def segSucceeds (retries backoff : Nat) (worlds : Nat → Nat → Attempt) (i : Nat) : Bool :=
  match processSegment (urlFor i) retries backoff (worlds i) FS.empty with
  | .ok _ => true
  | .error _ => false

/-- The driver loop over a list of segment indices.  Returns the indices whose
fetch was started, and the process exit code: an uncaught RuntimeError
terminates the interpreter with a non-zero exit code at that segment, and a
completed loop exits 0. -/
def runSegments (retries backoff : Nat) (worlds : Nat → Nat → Attempt) :
    List Nat → List Nat × Nat
  | [] => ([], 0)
  | i :: rest =>
    match processSegment (urlFor i) retries backoff (worlds i) FS.empty with
    | .ok _ =>
      let r := runSegments retries backoff worlds rest
      (i :: r.1, r.2)
    | .error _ => ([i], 1)

/-- The content of `gz_path` that the iterations before iteration `n` have
accumulated, starting from an absent file, when every iteration appends its
transfer bytes (resume semantics): the concatenation of the `appended` fields
of attempts `0 .. n-1`. -/
def gzBefore (world : Nat → Attempt) : Nat → List Byte
  | 0 => []
  | n + 1 => gzBefore world n ++ (world n).appended

/-! Helper lemmas about single attempts and the retry loop. -/

/-- After any iteration the compressed file exists: curl was invoked with
`-o gz_path` and `--continue-at -`, which creates or extends the file. -/
lemma runAttempt_gz_isSome (attempt retries : Nat) (url : String) (a : Attempt) (fs : FS) :
    ((runAttempt attempt retries url a fs).fsOf).gz.isSome = true := by
  unfold runAttempt
  by_cases h : a.curlExit = 0
  · by_cases hm : magicOk (fs.gz.getD [] ++ a.appended)
    · cases hr : a.unzipResult <;> simp [h, hm, hr, AttemptResult.fsOf]
    · simp [h, hm, AttemptResult.fsOf]
  · simp [h, AttemptResult.fsOf]

/-- No iteration deletes the decompressed file: it is either untouched or
rewritten, never removed. -/
lemma runAttempt_out_mono (attempt retries : Nat) (url : String) (a : Attempt) (fs : FS)
    (h : fs.out.isSome = true) :
    ((runAttempt attempt retries url a fs).fsOf).out.isSome = true := by
  unfold runAttempt
  by_cases hc : a.curlExit = 0
  · by_cases hm : magicOk (fs.gz.getD [] ++ a.appended)
    · cases hr : a.unzipResult <;> simp [hc, hm, hr, AttemptResult.fsOf]
    · simp [hc, hm, AttemptResult.fsOf, h]
  · simp [hc, AttemptResult.fsOf, h]

/-- Every iteration prints the attempt banner exactly once. -/
lemma runAttempt_one_download (attempt retries : Nat) (url : String) (a : Attempt) (fs : FS) :
    ((runAttempt attempt retries url a fs).eventsOf).countP isDownloading = 1 := by
  unfold runAttempt
  by_cases hc : a.curlExit = 0
  · by_cases hm : magicOk (fs.gz.getD [] ++ a.appended)
    · cases hr : a.unzipResult <;>
        simp [hc, hm, hr, AttemptResult.eventsOf, List.countP_cons, isDownloading]
    · simp [hc, hm, AttemptResult.eventsOf, List.countP_cons, isDownloading]
  · simp [hc, AttemptResult.eventsOf, List.countP_cons, isDownloading]

/-- When every remaining iteration fails while preserving an invariant `Inv`
on the file state, the loop raises the RuntimeError with attempt count
`retries + 1`, the final state satisfies the invariant, and the loop printed
one attempt banner per remaining iteration. -/
lemma loop_fatal_of_all_fail (url : String) (retries backoff : Nat) (world : Nat → Attempt)
    (Inv : Nat → FS → Prop)
    (hstep : ∀ n fs, n ≤ retries → Inv n fs →
      ∃ fs1 ev, runAttempt n retries url (world n) fs = .failure fs1 ev ∧ Inv (n + 1) fs1 ∧
        ev.countP isDownloading = 1) :
    ∀ fuel attempt fs log sl, attempt ≤ retries → retries + 1 ≤ fuel + attempt → Inv attempt fs →
      ∃ fs1 log1 sl1,
        loopAux url retries backoff world fuel attempt fs log sl =
          .fatal (retries + 1) url fs1 log1 sl1 ∧
        Inv (retries + 1) fs1 ∧
        log1.countP isDownloading = log.countP isDownloading + (retries + 1 - attempt) := by
  intro fuel
  induction fuel with
  | zero => intro attempt fs log sl hatt hfuel _; omega
  | succ f ih =>
    intro attempt fs log sl hatt hfuel hinv
    obtain ⟨fs1, ev, hrun, hinv1, hcount⟩ := hstep attempt fs hatt hinv
    by_cases hlast : attempt + 1 > retries
    · refine ⟨fs1, log ++ ev, sl, ?_, ?_, ?_⟩
      · simp [loopAux, hrun, hlast]
      · have : attempt = retries := by omega
        simpa [this] using hinv1
      · have : attempt = retries := by omega
        simp [List.countP_append, hcount, this]
    · have hrec := ih (attempt + 1) fs1 (log ++ ev ++ [.retrying (backoff * (attempt + 1))])
        (sl ++ [backoff * (attempt + 1)]) (by omega) (by omega) hinv1
      obtain ⟨fs2, log2, sl2, heq, hinv2, hcount2⟩ := hrec
      refine ⟨fs2, log2, sl2, ?_, hinv2, ?_⟩
      · simpa [loopAux, hrun, hlast] using heq
      · rw [hcount2]
        simp [List.countP_append, hcount, List.countP_cons, isDownloading]
        omega

/-- Appending to a list of length at least two does not change its first two
elements (the corrupt prefix of a resumed download survives every resume). -/
lemma take_two_append (d s : List Byte) (h : 2 ≤ d.length) : (d ++ s).take 2 = d.take 2 := by
  match d with
  | [] => simp at h
  | [a] => simp at h
  | a :: b :: t => rfl

/-- C3: for every maxRetries and every transfer that exits non-zero on all
attempts, `download_and_unzip` performs exactly `retries + 1` download attempts
(one banner per attempt), then raises the RuntimeError whose message carries
the segment URL and the total attempt count `retries + 1`, and no file is ever
created at the decompressed path. -/
theorem claimC3_all_transfers_fail_fatal (retries backoff : Nat) (url : String)
    (world : Nat → Attempt) (hfail : ∀ n, (world n).curlExit ≠ 0) :
    (downloadAndUnzip url retries backoff world FS.empty).attemptsReported = some (retries + 1) ∧
    (downloadAndUnzip url retries backoff world FS.empty).urlReported = some url ∧
    (downloadAndUnzip url retries backoff world FS.empty).logOf.countP isDownloading
      = retries + 1 ∧
    (downloadAndUnzip url retries backoff world FS.empty).fsOf.out = none := by
  have h := loop_fatal_of_all_fail url retries backoff world (fun _ fs => fs.out = none)
    (fun n fs hn hinv => by
      refine ⟨⟨some (fs.gz.getD [] ++ (world n).appended), fs.out⟩,
        [.downloading (n + 1) (retries + 1) url, .curlFailed], ?_, ?_, ?_⟩
      · simp [runAttempt, hfail n]
      · simpa using hinv
      · simp [List.countP_cons, isDownloading])
    (retries + 1) 0 FS.empty [] [] (Nat.zero_le _) (by omega) rfl
  obtain ⟨fs1, log1, sl1, heq, hinv, hcount⟩ := h
  unfold downloadAndUnzip
  rw [heq]
  exact ⟨rfl, rfl, by simpa [FetchOutcome.logOf] using hcount, hinv⟩

/-- Witness for C3 at retries = 2, backoff = 5, a transfer that always exits 1. -/
theorem claimC3_witness :
    (downloadAndUnzip "u" 2 5 (fun _ => ⟨1, [], .ok []⟩) FS.empty).attemptsReported = some 3 ∧
    (downloadAndUnzip "u" 2 5 (fun _ => ⟨1, [], .ok []⟩) FS.empty).urlReported = some "u" ∧
    (downloadAndUnzip "u" 2 5 (fun _ => ⟨1, [], .ok []⟩) FS.empty).logOf.countP isDownloading
      = 3 ∧
    (downloadAndUnzip "u" 2 5 (fun _ => ⟨1, [], .ok []⟩) FS.empty).fsOf.out = none :=
  claimC3_all_transfers_fail_fatal 2 5 "u" (fun _ => ⟨1, [], .ok []⟩) (fun _ => Nat.one_ne_zero)

/-- C5: an attempt whose transfer exits zero but whose downloaded file does
not start with 0x1f 0x8b performs no decompression (the decompressed file is
untouched, no gunzip message is printed) and counts as a failed attempt; and
when the condition persists on every attempt the call raises the RuntimeError
with attempt count `retries + 1` and never creates the decompressed file. -/
theorem claimC5_magic_mismatch_no_unzip :
    (∀ (att retries : Nat) (url : String) (a : Attempt) (fs : FS),
        a.curlExit = 0 → magicOk (fs.gz.getD [] ++ a.appended) = false →
        runAttempt att retries url a fs =
          .failure ⟨some (fs.gz.getD [] ++ a.appended), fs.out⟩
            [.downloading (att + 1) (retries + 1) url]) ∧
    (∀ (retries backoff : Nat) (url : String) (world : Nat → Attempt),
        (∀ n, (world n).curlExit = 0) →
        (∀ n, magicOk (gzBefore world (n + 1)) = false) →
        (downloadAndUnzip url retries backoff world FS.empty).attemptsReported
          = some (retries + 1) ∧
        (downloadAndUnzip url retries backoff world FS.empty).urlReported = some url ∧
        (downloadAndUnzip url retries backoff world FS.empty).fsOf.out = none) := by
  constructor
  · intro att retries url a fs h0 hm
    simp [runAttempt, h0, hm]
  · intro retries backoff url world hall hm
    have hstep : ∀ n fs, n ≤ retries →
        (fs.out = none ∧ fs.gz.getD [] = gzBefore world n) →
        ∃ fs1 ev, runAttempt n retries url (world n) fs = .failure fs1 ev ∧
          (fs1.out = none ∧ fs1.gz.getD [] = gzBefore world (n + 1)) ∧
          ev.countP isDownloading = 1 := by
      intro n fs hn hinv
      obtain ⟨hout, hgz⟩ := hinv
      have hmagic : magicOk (fs.gz.getD [] ++ (world n).appended) = false := by
        rw [hgz]
        exact hm n
      refine ⟨⟨some (fs.gz.getD [] ++ (world n).appended), fs.out⟩,
        [.downloading (n + 1) (retries + 1) url], ?_, ⟨hout, ?_⟩, ?_⟩
      · simp [runAttempt, hall n, hmagic]
      · simp [gzBefore, hgz]
      · simp [List.countP_cons, isDownloading]
    have h := loop_fatal_of_all_fail url retries backoff world
      (fun n fs => fs.out = none ∧ fs.gz.getD [] = gzBefore world n) hstep
      (retries + 1) 0 FS.empty [] [] (Nat.zero_le _) (by omega) ⟨rfl, rfl⟩
    obtain ⟨fs1, log1, sl1, heq, hinv, _⟩ := h
    unfold downloadAndUnzip
    rw [heq]
    exact ⟨rfl, rfl, hinv.1⟩

/-- Witness for C5: a concrete mismatching attempt (file content 0x00 0x00)
fails without touching the decompressed file, and a transfer that always
succeeds while writing nothing ends fatally after retries = 0 exhausts. -/
theorem claimC5_witness :
    runAttempt 0 3 "u" ⟨0, [0, 0], .ok []⟩ FS.empty
      = .failure ⟨some [0, 0], none⟩ [.downloading 1 4 "u"] ∧
    (downloadAndUnzip "u" 0 5 (fun _ => ⟨0, [], .ok []⟩) FS.empty).attemptsReported = some 1 ∧
    (downloadAndUnzip "u" 0 5 (fun _ => ⟨0, [], .ok []⟩) FS.empty).urlReported = some "u" ∧
    (downloadAndUnzip "u" 0 5 (fun _ => ⟨0, [], .ok []⟩) FS.empty).fsOf.out = none := by
  have hz : ∀ n, gzBefore (fun _ => (⟨0, [], .ok []⟩ : Attempt)) n = [] := by
    intro n
    induction n with
    | zero => rfl
    | succ k ih => simp [gzBefore, ih]
  refine ⟨?_, ?_⟩
  · exact claimC5_magic_mismatch_no_unzip.1 0 3 "u" ⟨0, [0, 0], .ok []⟩ FS.empty rfl (by decide)
  · exact claimC5_magic_mismatch_no_unzip.2 0 5 "u" _ (fun _ => rfl) (fun n => by rw [hz]; rfl)

/-- C9: once the compressed file holds at least two bytes whose prefix is not
the gzip magic, the resume semantics of `curl --continue-at -` only ever append
to it, so from any such point of the run every remaining attempt fails the
magic check (or the transfer itself fails) and `download_and_unzip` necessarily
ends in the RuntimeError carrying `retries + 1` attempts and the URL. -/
theorem claimC9_corrupt_resume_forces_fatal (url : String) (retries backoff : Nat)
    (world : Nat → Attempt) (fuel attempt : Nat) (fs : FS) (log : List LogEvent)
    (sl : List Nat) (c : List Byte) (hgz : fs.gz = some c) (hlen : 2 ≤ c.length)
    (hmag : magicOk c = false) (hatt : attempt ≤ retries)
    (hfuel : retries + 1 ≤ fuel + attempt) :
    (loopAux url retries backoff world fuel attempt fs log sl).attemptsReported
      = some (retries + 1) ∧
    (loopAux url retries backoff world fuel attempt fs log sl).urlReported = some url := by
  have hstep : ∀ n fs, n ≤ retries →
      (∃ d, fs.gz = some d ∧ 2 ≤ d.length ∧ magicOk d = false) →
      ∃ fs1 ev, runAttempt n retries url (world n) fs = .failure fs1 ev ∧
        (∃ d, fs1.gz = some d ∧ 2 ≤ d.length ∧ magicOk d = false) ∧
        ev.countP isDownloading = 1 := by
    intro n fs hn hinv
    obtain ⟨d, hd, hdl, hdm⟩ := hinv
    have hget : fs.gz.getD [] = d := by rw [hd]; rfl
    have hmagic : magicOk (d ++ (world n).appended) = false := by
      unfold magicOk at hdm ⊢
      rw [take_two_append d _ hdl]
      exact hdm
    have hlen2 : 2 ≤ (d ++ (world n).appended).length := by
      simp only [List.length_append]
      omega
    by_cases hc : (world n).curlExit = 0
    · refine ⟨⟨some (d ++ (world n).appended), fs.out⟩,
        [.downloading (n + 1) (retries + 1) url], ?_, ⟨_, rfl, hlen2, hmagic⟩, ?_⟩
      · simp [runAttempt, hc, hget, hmagic]
      · simp [List.countP_cons, isDownloading]
    · refine ⟨⟨some (d ++ (world n).appended), fs.out⟩,
        [.downloading (n + 1) (retries + 1) url, .curlFailed], ?_, ⟨_, rfl, hlen2, hmagic⟩, ?_⟩
      · simp [runAttempt, hc, hget]
      · simp [List.countP_cons, isDownloading]
  have h := loop_fatal_of_all_fail url retries backoff world
    (fun _ fs => ∃ d, fs.gz = some d ∧ 2 ≤ d.length ∧ magicOk d = false) hstep
    fuel attempt fs log sl hatt hfuel ⟨c, hgz, hlen, hmag⟩
  obtain ⟨fs1, log1, sl1, heq, _, _⟩ := h
  rw [heq]
  exact ⟨rfl, rfl⟩

/-- Witness for C9: the compressed file already holds 0x00 0x00; with one
retry allowed the call ends in the RuntimeError reporting 2 attempts. -/
theorem claimC9_witness :
    (loopAux "u" 1 5 (fun _ => ⟨0, [], .ok []⟩) 2 0 ⟨some [0, 0], none⟩ [] []).attemptsReported
      = some 2 ∧
    (loopAux "u" 1 5 (fun _ => ⟨0, [], .ok []⟩) 2 0 ⟨some [0, 0], none⟩ [] []).urlReported
      = some "u" :=
  claimC9_corrupt_resume_forces_fatal "u" 1 5 (fun _ => ⟨0, [], .ok []⟩) 2 0
    ⟨some [0, 0], none⟩ [] [] [0, 0] rfl (by decide) (by decide) (by decide) (by decide)

/-- Multiplying every entry of a list by a constant multiplies its sum. -/
lemma sum_map_mul (c : Nat) (l : List Nat) : (l.map (fun n => c * n)).sum = c * l.sum := by
  induction l with
  | nil => simp
  | cons x xs ih => simp [ih, Nat.mul_add]

/-- When the transfers of iterations `a .. k-1` fail (writing nothing) and
iteration `k` downloads a file that passes the magic check and decompresses,
the loop returns normally and sleeps exactly `backoff * n` seconds after the
n-th failure, for n = a+1 .. k. -/
lemma loop_success_after_k (url : String) (retries backoff k : Nat) (world : Nat → Attempt)
    (b : List Byte) (hk : k ≤ retries)
    (hfail : ∀ n, n < k → (world n).curlExit ≠ 0 ∧ (world n).appended = [])
    (hsucc : (world k).curlExit = 0)
    (hunzip : (world k).unzipResult = .ok b) :
    ∀ fuel a fs log sl, a ≤ k → retries + 1 ≤ fuel + a →
      magicOk (fs.gz.getD [] ++ (world k).appended) = true →
      ∃ fs1 log1,
        loopAux url retries backoff world fuel a fs log sl =
          .success fs1 log1 (sl ++ (List.range' (a + 1) (k - a)).map (fun n => backoff * n)) := by
  intro fuel
  induction fuel with
  | zero => intro a fs log sl ha hf _; omega
  | succ f ih =>
    intro a fs log sl ha hf hmagic
    by_cases hak : a = k
    · subst hak
      have hrun : runAttempt a retries url (world a) fs =
          .success ⟨some (fs.gz.getD [] ++ (world a).appended), some b⟩
            [.downloading (a + 1) (retries + 1) url, .unzipOk] := by
        simp [runAttempt, hsucc, hmagic, hunzip]
      refine ⟨⟨some (fs.gz.getD [] ++ (world a).appended), some b⟩,
        log ++ [.downloading (a + 1) (retries + 1) url, .unzipOk], ?_⟩
      simp [loopAux, hrun]
    · have hlt : a < k := lt_of_le_of_ne ha hak
      obtain ⟨hcf, happ⟩ := hfail a hlt
      have hrun : runAttempt a retries url (world a) fs =
          .failure ⟨some (fs.gz.getD [] ++ (world a).appended), fs.out⟩
            [.downloading (a + 1) (retries + 1) url, .curlFailed] := by
        simp [runAttempt, hcf]
      have hnl : ¬ (a + 1 > retries) := by omega
      have hmagic1 : magicOk
          ((⟨some (fs.gz.getD [] ++ (world a).appended), fs.out⟩ : FS).gz.getD []
            ++ (world k).appended) = true := by
        simpa [happ] using hmagic
      obtain ⟨fs1, log1, hrece⟩ := ih (a + 1)
        ⟨some (fs.gz.getD [] ++ (world a).appended), fs.out⟩
        (log ++ [.downloading (a + 1) (retries + 1) url, .curlFailed]
          ++ [.retrying (backoff * (a + 1))])
        (sl ++ [backoff * (a + 1)]) (by omega) (by omega) hmagic1
      have hunf : loopAux url retries backoff world (f + 1) a fs log sl =
          loopAux url retries backoff world f (a + 1)
            ⟨some (fs.gz.getD [] ++ (world a).appended), fs.out⟩
            (log ++ [.downloading (a + 1) (retries + 1) url, .curlFailed]
              ++ [.retrying (backoff * (a + 1))])
            (sl ++ [backoff * (a + 1)]) := by
        simp [loopAux, hrun, hnl]
      have hsplit : List.range' (a + 1) (k - a) =
          (a + 1) :: List.range' (a + 2) (k - (a + 1)) := by
        have h1 : k - a = (k - (a + 1)) + 1 := by omega
        rw [h1, List.range'_succ]
      refine ⟨fs1, log1, ?_⟩
      rw [hunf, hrece, hsplit]
      simp

/-- C4: when the transfer fails `k < retries` times (writing nothing) and the
k-th retry downloads a valid stream that decompresses, the call returns
normally; after the n-th failed attempt it slept exactly `backoff * n` seconds
(n = 1 .. k), so the sleep list is `[backoff * 1, ..., backoff * k]` and the
total sleep time is `backoff * (1 + 2 + ... + k)` — linear back-off. -/
theorem claimC4_linear_backoff_success (retries backoff k : Nat) (url : String)
    (world : Nat → Attempt) (b : List Byte) (hk : k < retries)
    (hfail : ∀ n, n < k → (world n).curlExit ≠ 0 ∧ (world n).appended = [])
    (hsucc : (world k).curlExit = 0)
    (hmagic : magicOk (world k).appended = true)
    (hunzip : (world k).unzipResult = .ok b) :
    (downloadAndUnzip url retries backoff world FS.empty).isSuccess = true ∧
    (downloadAndUnzip url retries backoff world FS.empty).sleepsOf =
      (List.range' 1 k).map (fun n => backoff * n) ∧
    (downloadAndUnzip url retries backoff world FS.empty).sleepsOf.sum =
      backoff * (List.range' 1 k).sum := by
  obtain ⟨fs1, log1, heq⟩ := loop_success_after_k url retries backoff k world b
    (Nat.le_of_lt hk) hfail hsucc hunzip (retries + 1) 0 FS.empty [] []
    (Nat.zero_le _) (by omega) (by simpa using hmagic)
  unfold downloadAndUnzip
  rw [heq]
  refine ⟨rfl, by simp [FetchOutcome.sleepsOf], ?_⟩
  simp [FetchOutcome.sleepsOf, sum_map_mul]

/-- Witness for C4 at retries = 2, backoff = 5, one transfer failure before a
clean download: one sleep of 5 seconds, total sleep 5 seconds, success. -/
theorem claimC4_witness :
    (downloadAndUnzip "u" 2 5
        (fun n => if n = 0 then ⟨1, [], .ok []⟩ else ⟨0, [0x1f, 0x8b], .ok [7]⟩)
        FS.empty).isSuccess = true ∧
    (downloadAndUnzip "u" 2 5
        (fun n => if n = 0 then ⟨1, [], .ok []⟩ else ⟨0, [0x1f, 0x8b], .ok [7]⟩)
        FS.empty).sleepsOf = [5] ∧
    (downloadAndUnzip "u" 2 5
        (fun n => if n = 0 then ⟨1, [], .ok []⟩ else ⟨0, [0x1f, 0x8b], .ok [7]⟩)
        FS.empty).sleepsOf.sum = 5 := by
  have h := claimC4_linear_backoff_success 2 5 1 "u"
    (fun n => if n = 0 then ⟨1, [], .ok []⟩ else ⟨0, [0x1f, 0x8b], .ok [7]⟩) [7]
    (by decide)
    (fun n hn => by
      have h0 : n = 0 := by omega
      subst h0
      exact ⟨Nat.one_ne_zero, rfl⟩)
    rfl (by decide) rfl
  exact ⟨h.1, h.2.1, h.2.2⟩

/-- The loop never deletes either file: existing files stay in existence
through every iteration, and a raised RuntimeError leaves the compressed file
of the last transfer in place. -/
lemma loopAux_no_delete (url : String) (retries backoff : Nat) (world : Nat → Attempt) :
    ∀ fuel attempt fs log sl,
      (fs.gz.isSome = true →
        ((loopAux url retries backoff world fuel attempt fs log sl).fsOf).gz.isSome = true) ∧
      (fs.out.isSome = true →
        ((loopAux url retries backoff world fuel attempt fs log sl).fsOf).out.isSome = true) ∧
      (∀ n u fs1 log1 sl1,
        loopAux url retries backoff world fuel attempt fs log sl = .fatal n u fs1 log1 sl1 →
        fs1.gz.isSome = true) := by
  intro fuel
  induction fuel with
  | zero =>
    intro attempt fs log sl
    refine ⟨fun h => h, fun h => h, ?_⟩
    intro n u fs1 log1 sl1 h
    simp [loopAux] at h
  | succ f ih =>
    intro attempt fs log sl
    cases hr : runAttempt attempt retries url (world attempt) fs with
    | success fs1 ev =>
      have hgz : fs1.gz.isSome = true := by
        have h := runAttempt_gz_isSome attempt retries url (world attempt) fs
        rw [hr] at h
        simpa [AttemptResult.fsOf] using h
      refine ⟨?_, ?_, ?_⟩
      · intro _
        simpa [loopAux, hr, FetchOutcome.fsOf] using hgz
      · intro hout
        have h := runAttempt_out_mono attempt retries url (world attempt) fs hout
        rw [hr] at h
        simpa [loopAux, hr, FetchOutcome.fsOf, AttemptResult.fsOf] using h
      · intro n u fs1' log1 sl1 h
        simp [loopAux, hr] at h
    | failure fs1 ev =>
      have hgz : fs1.gz.isSome = true := by
        have h := runAttempt_gz_isSome attempt retries url (world attempt) fs
        rw [hr] at h
        simpa [AttemptResult.fsOf] using h
      by_cases hl : attempt + 1 > retries
      · refine ⟨?_, ?_, ?_⟩
        · intro _
          simpa [loopAux, hr, hl, FetchOutcome.fsOf] using hgz
        · intro hout
          have h := runAttempt_out_mono attempt retries url (world attempt) fs hout
          rw [hr] at h
          simpa [loopAux, hr, hl, FetchOutcome.fsOf, AttemptResult.fsOf] using h
        · intro n u fs1' log1 sl1 h
          simp [loopAux, hr, hl] at h
          obtain ⟨-, -, h2, -, -⟩ := h
          rw [← h2]
          exact hgz
      · have hout1 : fs.out.isSome = true → fs1.out.isSome = true := by
          intro hout
          have h := runAttempt_out_mono attempt retries url (world attempt) fs hout
          rw [hr] at h
          simpa [AttemptResult.fsOf] using h
        have hrec := ih (attempt + 1) fs1
          (log ++ ev ++ [.retrying (backoff * (attempt + 1))])
          (sl ++ [backoff * (attempt + 1)])
        refine ⟨?_, ?_, ?_⟩
        · intro _
          simpa [loopAux, hr, hl] using hrec.1 hgz
        · intro hout
          simpa [loopAux, hr, hl] using hrec.2.1 (hout1 hout)
        · intro n u fs1' log1 sl1 h
          apply hrec.2.2 n u fs1' log1 sl1
          simpa [loopAux, hr, hl] using h

/-- C10: no branch of `download_and_unzip` removes a file — a compressed or
decompressed file present before the call (for instance a partially written
decompressed file of an earlier failed attempt) is still present however the
call resolves, and every invocation that raises the RuntimeError leaves the
compressed file written by the last transfer attempt at `gz_path`. -/
theorem claimC10_no_branch_deletes (url : String) (retries backoff : Nat)
    (world : Nat → Attempt) (fs : FS) :
    (fs.gz.isSome = true →
      ((downloadAndUnzip url retries backoff world fs).fsOf).gz.isSome = true) ∧
    (fs.out.isSome = true →
      ((downloadAndUnzip url retries backoff world fs).fsOf).out.isSome = true) ∧
    (∀ n u fs1 log1 sl1,
      downloadAndUnzip url retries backoff world fs = .fatal n u fs1 log1 sl1 →
      fs1.gz.isSome = true) :=
  loopAux_no_delete url retries backoff world (retries + 1) 0 fs [] []

/-- Witness for C10: both pre-existing files survive a fatal run, and the
fatal state still holds the compressed file. -/
theorem claimC10_witness :
    ((downloadAndUnzip "u" 0 5 (fun _ => ⟨1, [9], .ok []⟩)
        ⟨some [1], some [2]⟩).fsOf).gz.isSome = true ∧
    ((downloadAndUnzip "u" 0 5 (fun _ => ⟨1, [9], .ok []⟩)
        ⟨some [1], some [2]⟩).fsOf).out.isSome = true ∧
    (⟨some [1, 9], some [2]⟩ : FS).gz.isSome = true := by
  have h := claimC10_no_branch_deletes "u" 0 5 (fun _ => ⟨1, [9], .ok []⟩) ⟨some [1], some [2]⟩
  exact ⟨h.1 rfl, h.2.1 rfl,
    h.2.2 1 "u" ⟨some [1, 9], some [2]⟩ [.downloading 1 1 "u", .curlFailed] [] rfl⟩

/-- C2 counterexample: with retries = 0 and a download that passes the magic
check but fails mid-decompression after writing the single byte 42, the fetch
resolves fatally and the partially written decompressed file (content [42]) is
left at the decompressed path as the final artifact — the code writes straight
into `out_path` with no temporary file and no rename. -/
theorem claimC2_counterexample :
    downloadAndUnzip "u" 0 5 (fun _ => ⟨0, [0x1f, 0x8b], .fail [42]⟩) FS.empty
      = .fatal 1 "u" ⟨some [0x1f, 0x8b], some [42]⟩ [.downloading 1 1 "u", .gunzipFailed] [] ∧
    ((downloadAndUnzip "u" 0 5 (fun _ => ⟨0, [0x1f, 0x8b], .fail [42]⟩) FS.empty).fsOf).out
      = some [42] := ⟨rfl, rfl⟩

/-- What the gzip copy leaves at `out_path` when it runs: the full output on
success, the bytes written before the error on failure. -/
def writtenBytes : UnzipOutcome → List Byte
  | .ok b => b
  | .fail w => w

/-- C2 amended: whenever an attempt reaches decompression, `out_path` is
opened with mode "wb", so afterwards it holds exactly the bytes written by
this attempt — any partially written decompressed file from an earlier attempt
is truncated and overwritten, never merged into; but the write goes directly
to the decompressed path, so a failed final decompression leaves a partial
file there (see the counterexample). -/
theorem claimC2_amended_overwrite (att retries : Nat) (url : String) (a : Attempt) (fs : FS)
    (h0 : a.curlExit = 0) (hm : magicOk (fs.gz.getD [] ++ a.appended) = true) :
    ((runAttempt att retries url a fs).fsOf).out = some (writtenBytes a.unzipResult) := by
  cases hu : a.unzipResult <;>
    simp [runAttempt, h0, hm, hu, writtenBytes, AttemptResult.fsOf]

/-- Witness for the amended C2: an older partial file [7, 7] is replaced by
exactly the bytes [9] this attempt wrote before failing. -/
theorem claimC2_amended_witness :
    ((runAttempt 0 0 "u" ⟨0, [0x1f, 0x8b], .fail [9]⟩ ⟨some [], some [7, 7]⟩).fsOf).out
      = some [9] :=
  claimC2_amended_overwrite 0 0 "u" ⟨0, [0x1f, 0x8b], .fail [9]⟩ ⟨some [], some [7, 7]⟩
    rfl (by decide)

/-- C7 counterexample: an attempt whose transfer succeeds but whose file fails
the magic check is a failed attempt, yet the messages it prints contain no
error message at all — only the attempt banner.  The integrity failure is
silently swallowed. -/
theorem claimC7_counterexample :
    runAttempt 0 3 "u2" ⟨0, [0, 0], .ok []⟩ FS.empty
      = .failure ⟨some [0, 0], none⟩ [.downloading 1 4 "u2"] ∧
    ([LogEvent.downloading 1 4 "u2"].countP isErrorMessage) = 0 := ⟨rfl, rfl⟩

/-- C7 amended: a transfer failure prints the "curl failed" message and a
decompression failure prints the "gunzip failed" message before the retry, but
a magic-number (integrity) failure prints no error message for that attempt —
only the attempt banner (and, for a non-final attempt, the generic retry
announcement that follows every failure). -/
theorem claimC7_amended_logging (att retries : Nat) (url : String) (a : Attempt) (fs : FS) :
    (a.curlExit ≠ 0 →
      ((runAttempt att retries url a fs).eventsOf).countP isErrorMessage = 1) ∧
    (∀ w, a.curlExit = 0 → magicOk (fs.gz.getD [] ++ a.appended) = true →
      a.unzipResult = .fail w →
      ((runAttempt att retries url a fs).eventsOf).countP isErrorMessage = 1) ∧
    (a.curlExit = 0 → magicOk (fs.gz.getD [] ++ a.appended) = false →
      ((runAttempt att retries url a fs).eventsOf).countP isErrorMessage = 0) := by
  refine ⟨?_, ?_, ?_⟩
  · intro hc
    simp [runAttempt, hc, AttemptResult.eventsOf, List.countP_cons, isErrorMessage]
  · intro w hc hm hu
    simp [runAttempt, hc, hm, hu, AttemptResult.eventsOf, List.countP_cons, isErrorMessage]
  · intro hc hm
    simp [runAttempt, hc, hm, AttemptResult.eventsOf, List.countP_cons, isErrorMessage]

/-- Witness for the amended C7: one error message for a curl failure, one for
a gunzip failure, none for a magic mismatch. -/
theorem claimC7_amended_witness :
    ((runAttempt 0 1 "w" ⟨7, [], .ok []⟩ FS.empty).eventsOf).countP isErrorMessage = 1 ∧
    ((runAttempt 0 1 "w" ⟨0, [0x1f, 0x8b], .fail [3]⟩ FS.empty).eventsOf).countP
      isErrorMessage = 1 ∧
    ((runAttempt 0 1 "w" ⟨0, [7, 7], .ok []⟩ FS.empty).eventsOf).countP isErrorMessage = 0 :=
  ⟨(claimC7_amended_logging 0 1 "w" ⟨7, [], .ok []⟩ FS.empty).1 (by decide),
    (claimC7_amended_logging 0 1 "w" ⟨0, [0x1f, 0x8b], .fail [3]⟩ FS.empty).2.1 [3]
      rfl (by decide) rfl,
    (claimC7_amended_logging 0 1 "w" ⟨0, [7, 7], .ok []⟩ FS.empty).2.2 rfl (by decide)⟩

/-- C1, evaluated at a run whose transfer and decompression succeed on the
first attempt: `download_and_unzip` returns `None`, so the binding
`ok = download_and_unzip(...)` on line 83 makes `if not ok` on line 84 true,
the driver prints its failure message and `continue`s, and the
`os.remove(gz_file_path)` of line 90 is never reached — the compressed file
(content 1f 8b 07 07 here) is still present after the segment completes. -/
theorem claimC1_gz_never_removed :
    processSegment "u" 3 5 (fun _ => ⟨0, [0x1f, 0x8b, 7, 7], .ok [104, 105]⟩) FS.empty
      = .ok (⟨some [0x1f, 0x8b, 7, 7], some [104, 105]⟩, false) ∧
    (⟨some [0x1f, 0x8b, 7, 7], some [104, 105]⟩ : FS).gz.isSome = true := ⟨rfl, rfl⟩

/-- C6: the driver is fail-fast.  If every segment of the range resolves
without raising, the loop processes the whole range and the process exits 0;
if segment `j` is the first to raise the RuntimeError, the loop processes
exactly the segments up to and including `j` — no higher index is ever
started — and the process exits non-zero. -/
theorem claimC6_failfast_exit_codes (retries backoff : Nat) (worlds : Nat → Nat → Attempt)
    (start n : Nat) :
    ((∀ i ∈ List.range' start n, segSucceeds retries backoff worlds i = true) →
      runSegments retries backoff worlds (List.range' start n) = (List.range' start n, 0)) ∧
    (∀ j ∈ List.range' start n, segSucceeds retries backoff worlds j = false →
      (∀ i ∈ List.range' start (j - start), segSucceeds retries backoff worlds i = true) →
      runSegments retries backoff worlds (List.range' start n) =
        (List.range' start (j - start + 1), 1)) := by
  constructor
  · induction n generalizing start with
    | zero =>
      intro _
      simp [runSegments]
    | succ m ih =>
      intro hall
      have hs : segSucceeds retries backoff worlds start = true := by
        apply hall
        simp only [List.mem_range'_1]
        omega
      rw [List.range'_succ]
      cases hps : processSegment (urlFor start) retries backoff (worlds start) FS.empty with
      | ok v =>
        have hrest := ih (start + 1) (by
          intro i hi
          apply hall
          rw [List.range'_succ]
          exact List.mem_cons_of_mem start hi)
        simp [runSegments, hps, hrest]
      | error e =>
        rw [segSucceeds, hps] at hs
        simp at hs
  · induction n generalizing start with
    | zero =>
      intro j hj
      simp at hj
    | succ m ih =>
      intro j hj hjf hpre
      by_cases hjs : j = start
      · subst hjs
        cases hps : processSegment (urlFor j) retries backoff (worlds j) FS.empty with
        | ok v =>
          rw [segSucceeds, hps] at hjf
          simp at hjf
        | error e =>
          rw [List.range'_succ]
          simp [runSegments, hps, Nat.sub_self]
      · have hjm : j ∈ List.range' (start + 1) m := by
          rw [List.range'_succ] at hj
          rcases List.mem_cons.mp hj with h | h
          · exact absurd h hjs
          · exact h
        have hlt : start + 1 ≤ j := (List.mem_range'_1.mp hjm).1
        have hs : segSucceeds retries backoff worlds start = true := by
          apply hpre
          simp only [List.mem_range'_1]
          omega
        cases hps : processSegment (urlFor start) retries backoff (worlds start) FS.empty with
        | error e =>
          rw [segSucceeds, hps] at hs
          simp at hs
        | ok v =>
          have hpre1 : ∀ i ∈ List.range' (start + 1) (j - (start + 1)),
              segSucceeds retries backoff worlds i = true := by
            intro i hi
            apply hpre
            have hm1 := List.mem_range'_1.mp hi
            simp only [List.mem_range'_1]
            omega
          have hrec := ih (start + 1) j hjm hjf hpre1
          rw [List.range'_succ]
          simp [runSegments, hps, hrec]
          have h1 : j - start + 1 = (j - (start + 1) + 1) + 1 := by omega
          rw [h1]
          simp [List.range'_succ]

/-- Witness for C6: with three segments and worlds making them all succeed the
run processes [0, 1, 2] and exits 0; with segment 1 fatally failing the run
processes exactly [0, 1] (segment 2 is never started) and exits 1. -/
theorem claimC6_witness :
    runSegments 0 5 (fun _ _ => ⟨0, [0x1f, 0x8b], .ok [1]⟩) (List.range' 0 3)
      = (List.range' 0 3, 0) ∧
    runSegments 0 5 (fun i _ => if i = 0 then ⟨0, [0x1f, 0x8b], .ok [1]⟩ else ⟨1, [], .ok []⟩)
      (List.range' 0 3) = (List.range' 0 2, 1) := by
  constructor
  · exact (claimC6_failfast_exit_codes 0 5 (fun _ _ => ⟨0, [0x1f, 0x8b], .ok [1]⟩) 0 3).1
      (by decide)
  · exact (claimC6_failfast_exit_codes 0 5
      (fun i _ => if i = 0 then ⟨0, [0x1f, 0x8b], .ok [1]⟩ else ⟨1, [], .ok []⟩) 0 3).2
      1 (by decide) (by decide) (by decide)

/-- Digit-count bound: a number below `10 ^ k` has at most `k` decimal digits
(for any amount of fuel). -/
lemma natDigitsAux_len_le : ∀ (fuel n k : Nat), n < 10 ^ k →
    (natDigitsAux fuel n).length ≤ k := by
  intro fuel
  induction fuel with
  | zero =>
    intro n k _
    simp [natDigitsAux]
  | succ f ih =>
    intro n k h
    unfold natDigitsAux
    by_cases hn : n = 0
    · simp [hn]
    · simp only [hn, if_false, List.length_cons]
      cases k with
      | zero =>
        simp at h
        omega
      | succ j =>
        have hdiv : n / 10 < 10 ^ j := by
          rw [pow_succ] at h
          omega
        have := ih (n / 10) j hdiv
        omega

/-- Every index below 100000 renders as exactly five digits after the
zero-padding of the format specifier 05d. -/
lemma fileNum_length (i : Nat) (h : i < 100000) : (fileNum i).length = 5 := by
  have hle : (natDigits i).length ≤ 5 := by
    apply natDigitsAux_len_le i i 5
    norm_num
    omega
  simp [fileNum, List.length_append, List.length_replicate, List.length_reverse]
  omega

/-- The elements of `range'` with step 1 are strictly ascending. -/
lemma chain_lt_range' (n : Nat) : ∀ s, List.Chain' (fun a b => a < b) (List.range' s n) := by
  induction n with
  | zero =>
    intro s
    simp
  | succ m ih =>
    intro s
    rw [List.range'_succ]
    cases m with
    | zero => simp
    | succ j =>
      rw [List.range'_succ, List.chain'_cons]
      refine ⟨by omega, ?_⟩
      rw [← List.range'_succ]
      exact ih (s + 1)

/-- C8 counterexample: at start = 100000, end = 100001 (a valid range with
start ≤ end) the single descriptor renders its file-number component with six
digits, not exactly five — the 05d specifier pads to a minimum width of five
and does not truncate larger indices. -/
theorem claimC8_counterexample :
    ((enumerateSegments 100000 100001).map (fun d => d.fileNumDigits.length)) = [6] := by
  decide

/-- C8 amended: for every range the Enumerator yields exactly `end - start`
descriptors, one per integer of [start, end) in strictly ascending index
order, the empty sequence when start is at least end, and the file-number
component is zero-padded to exactly five digits for every index below 100000
(indices of 100000 and above render with their full, longer digit count). -/
theorem claimC8_amended_enumeration (start endIdx : Nat) :
    (enumerateSegments start endIdx).map SegmentDescriptor.index
      = List.range' start (endIdx - start) ∧
    (enumerateSegments start endIdx).length = endIdx - start ∧
    (endIdx ≤ start → enumerateSegments start endIdx = []) ∧
    List.Chain' (fun d e => d.index < e.index) (enumerateSegments start endIdx) ∧
    (∀ d ∈ enumerateSegments start endIdx, d.index < 100000 →
      d.fileNumDigits.length = 5) := by
  refine ⟨?_, ?_, ?_, ?_, ?_⟩
  · have hcomp : SegmentDescriptor.index ∘ mkDescriptor = id := rfl
    rw [enumerateSegments, List.map_map, hcomp, List.map_id]
  · simp [enumerateSegments]
  · intro h
    have h0 : endIdx - start = 0 := by omega
    simp [enumerateSegments, h0]
  · rw [enumerateSegments, List.chain'_map]
    have h := chain_lt_range' (endIdx - start) start
    apply List.Chain'.imp ?_ h
    intro a b hab
    simpa [mkDescriptor] using hab
  · intro d hd hidx
    obtain ⟨i, hi, rfl⟩ := List.mem_map.mp hd
    have hi5 : i < 100000 := by simpa [mkDescriptor] using hidx
    simpa [mkDescriptor] using fileNum_length i hi5

/-- Witness for the amended C8 at the range [3, 6). -/
theorem claimC8_amended_witness :
    (enumerateSegments 3 6).length = 3 ∧ (mkDescriptor 3).fileNumDigits.length = 5 := by
  have h := claimC8_amended_enumeration 3 6
  refine ⟨h.2.1, ?_⟩
  exact h.2.2.2.2 (mkDescriptor 3)
    (List.mem_map_of_mem mkDescriptor (by decide : (3 : Nat) ∈ List.range' 3 (6 - 3)))
    (by decide)

end CrawlFetch
